import Mathlib

/-!
Verification of the vpinleaders-client screen streamer against its
natural-language specification.  The Python sources are shallowly embedded:
pure helpers become Lean functions, the asynchronous portal negotiation of
`streamer_linux.py` becomes a function from an environment (the outcomes the
outside world delivers to each awaited step) to the trace of issued portal
calls together with the final result, and the producer/consumer frame queue
becomes explicit state passing over lists.
-/

/- ==================================================================
   D-Bus values and unwrap (src/streamer_linux.py, lines 35-42)
   ================================================================== -/

/-- Values travelling over the D-Bus connection, as seen by the Python code:
ground values (strings, integers, booleans, ... -- abstracted to an opaque
payload string), `dbus_next.Variant` wrappers, dictionaries (modelled as
association lists), Python lists and Python tuples. -/
inductive DValue where
  | base : String → DValue
  | variant : DValue → DValue
  | dict : List (DValue × DValue) → DValue
  | list : List DValue → DValue
  | tuple : List DValue → DValue

mutual

/-- `unwrap` from src/streamer_linux.py: a Variant is replaced by its
recursively unwrapped value, a dict is rebuilt with unwrapped keys and
values, and both lists and tuples become lists of unwrapped elements. -/
def unwrap : DValue → DValue
  | DValue.base s => DValue.base s
  | DValue.variant v => unwrap v
  | DValue.dict es => DValue.dict (unwrapEntries es)
  | DValue.list xs => DValue.list (unwrapList xs)
  | DValue.tuple xs => DValue.list (unwrapList xs)

/-- Elementwise `unwrap` over the elements of a list or tuple. -/
def unwrapList : List DValue → List DValue
  | [] => []
  | x :: xs => unwrap x :: unwrapList xs

/-- Keywise and valuewise `unwrap` over the entries of a dict. -/
def unwrapEntries : List (DValue × DValue) → List (DValue × DValue)
  | [] => []
  | (k, v) :: es => (unwrap k, unwrap v) :: unwrapEntries es

end

mutual

/-- A value contains no `Variant` wrapper at any nesting depth. -/
def variantFree : DValue → Bool
  | DValue.base _ => true
  | DValue.variant _ => false
  | DValue.dict es => variantFreeEntries es
  | DValue.list xs => variantFreeList xs
  | DValue.tuple xs => variantFreeList xs

/-- All elements of a list are free of `Variant` wrappers. -/
def variantFreeList : List DValue → Bool
  | [] => true
  | x :: xs => variantFree x && variantFreeList xs

/-- All keys and values of a dict are free of `Variant` wrappers. -/
def variantFreeEntries : List (DValue × DValue) → Bool
  | [] => true
  | (k, v) :: es => variantFree k && variantFree v && variantFreeEntries es

end

mutual

theorem unwrap_unwrap (v : DValue) : unwrap (unwrap v) = unwrap v := by
  match v with
  | DValue.base s => simp [unwrap]
  | DValue.variant w => simp only [unwrap]; exact unwrap_unwrap w
  | DValue.dict es => simp only [unwrap]; rw [unwrapEntries_unwrapEntries es]
  | DValue.list xs => simp only [unwrap]; rw [unwrapList_unwrapList xs]
  | DValue.tuple xs => simp only [unwrap]; rw [unwrapList_unwrapList xs]

theorem unwrapList_unwrapList (xs : List DValue) :
    unwrapList (unwrapList xs) = unwrapList xs := by
  match xs with
  | [] => simp [unwrapList]
  | x :: rest =>
    simp only [unwrapList]
    rw [unwrap_unwrap x, unwrapList_unwrapList rest]

theorem unwrapEntries_unwrapEntries (es : List (DValue × DValue)) :
    unwrapEntries (unwrapEntries es) = unwrapEntries es := by
  match es with
  | [] => simp [unwrapEntries]
  | (k, v) :: rest =>
    simp only [unwrapEntries]
    rw [unwrap_unwrap k, unwrap_unwrap v, unwrapEntries_unwrapEntries rest]

end

mutual

theorem variantFree_unwrap (v : DValue) : variantFree (unwrap v) = true := by
  match v with
  | DValue.base s => simp [unwrap, variantFree]
  | DValue.variant w => simp only [unwrap]; exact variantFree_unwrap w
  | DValue.dict es =>
    simp only [unwrap, variantFree]
    exact variantFreeEntries_unwrapEntries es
  | DValue.list xs =>
    simp only [unwrap, variantFree]
    exact variantFreeList_unwrapList xs
  | DValue.tuple xs =>
    simp only [unwrap, variantFree]
    exact variantFreeList_unwrapList xs

theorem variantFreeList_unwrapList (xs : List DValue) :
    variantFreeList (unwrapList xs) = true := by
  match xs with
  | [] => simp [unwrapList, variantFreeList]
  | x :: rest =>
    simp only [unwrapList, variantFreeList, Bool.and_eq_true]
    exact ⟨variantFree_unwrap x, variantFreeList_unwrapList rest⟩

theorem variantFreeEntries_unwrapEntries (es : List (DValue × DValue)) :
    variantFreeEntries (unwrapEntries es) = true := by
  match es with
  | [] => simp [unwrapEntries, variantFreeEntries]
  | (k, v) :: rest =>
    simp only [unwrapEntries, variantFreeEntries, Bool.and_eq_true]
    exact ⟨⟨variantFree_unwrap k, variantFree_unwrap v⟩,
      variantFreeEntries_unwrapEntries rest⟩

end

theorem unwrapList_eq_map (xs : List DValue) : unwrapList xs = xs.map unwrap := by
  induction xs with
  | nil => simp [unwrapList]
  | cons x rest ih => simp [unwrapList, ih]

theorem unwrapEntries_eq_map (es : List (DValue × DValue)) :
    unwrapEntries es = es.map (fun kv => (unwrap kv.1, unwrap kv.2)) := by
  induction es with
  | nil => simp [unwrapEntries]
  | cons kv rest ih =>
    obtain ⟨k, v⟩ := kv
    simp [unwrapEntries, ih]

/-- C10: `unwrap` is idempotent, its result contains no Variant wrapper at
any nesting depth, Variants are replaced by their recursively unwrapped
value, dictionaries are unwrapped keywise and valuewise, and lists and
tuples both become lists of unwrapped elements. -/
theorem unwrap_idempotent_and_variant_free (v : DValue) (xs : List DValue)
    (es : List (DValue × DValue)) :
    unwrap (unwrap v) = unwrap v ∧
    variantFree (unwrap v) = true ∧
    unwrap (DValue.variant v) = unwrap v ∧
    unwrap (DValue.dict es) =
      DValue.dict (es.map (fun kv => (unwrap kv.1, unwrap kv.2))) ∧
    unwrap (DValue.list xs) = DValue.list (xs.map unwrap) ∧
    unwrap (DValue.tuple xs) = DValue.list (xs.map unwrap) := by
  refine ⟨unwrap_unwrap v, variantFree_unwrap v, by simp [unwrap], ?_, ?_, ?_⟩
  · simp [unwrap, unwrapEntries_eq_map]
  · simp [unwrap, unwrapList_eq_map]
  · simp [unwrap, unwrapList_eq_map]

/- ==================================================================
   Frame bridge queue (src/streamer_linux.py, lines 263 and 323-361)
   ================================================================== -/

/-- `asyncio.Queue.put_nowait` on a queue of maxsize 2: raises QueueFull
(modelled as `none`) when the queue is already full, otherwise appends. -/
def put_nowait {α : Type} (q : List α) (f : α) : Option (List α) :=
  if 2 ≤ q.length then none else some (q ++ [f])

/-- The `push` closure scheduled by `GstPipeWireCallbackGrabber._on_new_sample`
via `call_soon_threadsafe`: if the queue is full, `get_nowait` first removes
the oldest entry (its QueueEmpty exception is swallowed, but cannot occur on
a full queue), then the new frame is enqueued with `put_nowait`. -/
def push {α : Type} (q : List α) (f : α) : Option (List α) :=
  let q2 := if 2 ≤ q.length then q.drop 1 else q
  put_nowait q2 f

/-- A sequence of producer insertions with no intervening consumer dequeue:
each frame in turn is pushed by the pipeline callback.  `none` would mean
some `put_nowait` raised QueueFull. -/
def pushAll {α : Type} (q : List α) (fs : List α) : Option (List α) :=
  match fs with
  | [] => some q
  | f :: rest =>
    match push q f with
    | none => none
    | some q2 => pushAll q2 rest

theorem pushAll_drop {α : Type} (fs : List α) :
    ∀ q : List α, q.length ≤ 2 →
      pushAll q fs = some ((q ++ fs).drop (q.length + fs.length - 2)) := by
  induction fs with
  | nil =>
    intro q hq
    have h0 : q.length - 2 = 0 := by omega
    simp [pushAll, h0]
  | cons f rest ih =>
    intro q hq
    by_cases hfull : 2 ≤ q.length
    · have hq2 : q.length = 2 := le_antisymm hq hfull
      have hlen : (q.drop 1 ++ [f]).length ≤ 2 := by
        simp [List.length_drop, hq2]
      have hstep : push q f = some (q.drop 1 ++ [f]) := by
        simp [push, put_nowait, hfull, List.length_drop, hq2]
      simp only [pushAll, hstep]
      rw [ih (q.drop 1 ++ [f]) hlen]
      have hl : (q.drop 1 ++ [f]) ++ rest = (q ++ f :: rest).drop 1 := by
        rw [List.append_assoc,
          List.drop_append_of_le_length (show 1 ≤ q.length by omega)]
        simp
      rw [hl, List.drop_drop]
      have hi : 1 + ((q.drop 1 ++ [f]).length + rest.length - 2) =
          q.length + (f :: rest).length - 2 := by
        simp only [List.length_append, List.length_drop, List.length_cons,
          List.length_nil, hq2]
        omega
      rw [hi]
    · have hstep : push q f = some (q ++ [f]) := by
        simp [push, put_nowait, hfull]
      have hlen : (q ++ [f]).length ≤ 2 := by
        simp only [List.length_append, List.length_cons, List.length_nil]
        omega
      simp only [pushAll, hstep]
      rw [ih (q ++ [f]) hlen]
      have hl : (q ++ [f]) ++ rest = q ++ f :: rest := by simp
      have hi : (q ++ [f]).length + rest.length - 2 =
          q.length + (f :: rest).length - 2 := by
        simp only [List.length_append, List.length_cons, List.length_nil]
        omega
      rw [hl, hi]

/-- C2: starting from the empty bridge queue, any sequence of frame
insertions by the pipeline callback with no intervening consumer dequeue
always succeeds (the producer never blocks and `put_nowait` never raises),
and leaves the queue holding exactly the most recent at most 2 inserted
frames in insertion order: the oldest entry is evicted first whenever the
queue is full. -/
theorem frame_queue_latest_two {α : Type} (fs : List α) :
    pushAll ([] : List α) fs = some (fs.drop (fs.length - 2)) ∧
    (fs.drop (fs.length - 2)).length ≤ 2 := by
  constructor
  · have h := pushAll_drop fs ([] : List α) (by simp)
    simpa using h
  · simp only [List.length_drop]
    omega

/- ==================================================================
   Request/Response correlation (src/streamer_linux.py, lines 133-158)
   ================================================================== -/

/-- The message types of dbus_next.constants.MessageType used here. -/
inductive BusMessageType where
  | methodCall
  | methodReturn
  | errorReply
  | signal
deriving DecidableEq

/-- An inbound D-Bus message as observed by the handler installed by
`wait_request_response`: its type, interface, member, object path, and the
two-element Response body (response code, results dictionary). -/
structure BusMessage where
  message_type : BusMessageType
  interface : String
  member : String
  path : String
  body_response : Nat
  body_results : List (String × DValue)

/-- The value the pending future is resolved with (the dict built in the
handler): response code, decoded results, the path of the resolving signal
and the expected request path. -/
structure ResponsePayload where
  response : Nat
  results : List (String × DValue)
  path : String
  expected : String

/-- One invocation of the `handler` closure of
`RawPortalScreencast.wait_request_response` on the current future state: a
message of type SIGNAL on interface org.freedesktop.portal.Request with
member Response resolves the future if it is not yet done; every other
message leaves it untouched.  The handler never inspects `msg.path`. -/
def response_handler (expected : String) (fut : Option ResponsePayload)
    (msg : BusMessage) : Option ResponsePayload :=
  if msg.message_type = BusMessageType.signal ∧
      msg.interface = "org.freedesktop.portal.Request" ∧
      msg.member = "Response" then
    match fut with
    | some r => some r
    | none =>
      some ⟨msg.body_response,
        msg.body_results.map (fun kv => (kv.1, unwrap kv.2)),
        msg.path, expected⟩
  else fut

/-- `RawPortalScreencast.wait_request_response`: the handler is installed
with the unwrapped request path as the expected path and processes the
inbound messages in arrival order, starting from an unresolved future. -/
def wait_request_response (request_path : String) (inbound : List BusMessage) :
    Option ResponsePayload :=
  inbound.foldl (response_handler request_path) none

/-- C1 (code bug): a Response signal whose object path differs from the
awaited request path still resolves the pending future.  Awaiting the
request path /req/A, a single inbound Response signal carrying the
unrelated path /req/B resolves the future with that signal's payload,
although the two paths differ. -/
theorem wait_request_response_cross_talk :
    wait_request_response "/req/A"
        [⟨BusMessageType.signal, "org.freedesktop.portal.Request",
          "Response", "/req/B", 0, []⟩] =
      some ⟨0, [], "/req/B", "/req/A"⟩ ∧
    ("/req/B" : String) ≠ "/req/A" := by
  constructor
  · rfl
  · decide

/- ==================================================================
   Transport reconnect policy (src/streamer_mac.py lines 30-66,
   src/streamer_windows.py lines 74-120)
   ================================================================== -/

/-- The fate of one attempted websocket connection: the connect call itself
raises, or the connection succeeds and a later send raises after `sent`
frames were delivered.  (The inner streaming loops never return normally,
so every connection eventually ends in one of these.) -/
inductive AttemptOutcome where
  | connectFail
  | sendFailAfter (sent : Nat)
deriving DecidableEq

/-- Externally visible events of a transport loop run. -/
inductive TraceEvent where
  | connected
  | sentFrames (n : Nat)
  | sleepRetry (seconds : Nat)
  | processExit
deriving DecidableEq

/-- `stream_screen` of src/streamer_mac.py: an outer `while True` wraps the
connect and the inner send loop in try/except; any exception is logged,
the loop sleeps a fixed 2 seconds and retries, for as many failures as
occur. -/
def stream_screen_trace : List AttemptOutcome → List TraceEvent
  | [] => []
  | AttemptOutcome.connectFail :: rest =>
    TraceEvent.sleepRetry 2 :: stream_screen_trace rest
  | AttemptOutcome.sendFailAfter n :: rest =>
    TraceEvent.connected :: TraceEvent.sentFrames n ::
      TraceEvent.sleepRetry 2 :: stream_screen_trace rest

/-- `stream_windows` of src/streamer_windows.py: there is no try/except and
no outer reconnect loop around `websockets.connect` and `ws.send`; the
first transport failure propagates through `main` and `asyncio.run`, and
the process exits. -/
def stream_windows_trace : List AttemptOutcome → List TraceEvent
  | [] => []
  | AttemptOutcome.connectFail :: _ => [TraceEvent.processExit]
  | AttemptOutcome.sendFailAfter n :: _ =>
    [TraceEvent.connected, TraceEvent.sentFrames n, TraceEvent.processExit]

/-- C3 (counterexample): on the Windows variant a single connect failure
terminates the process, so it is false that on every platform variant a
transport failure merely triggers a 2-second-delay retry and the process
never terminates. -/
theorem windows_transport_failure_terminates :
    stream_windows_trace [AttemptOutcome.connectFail] =
      [TraceEvent.processExit] ∧
    TraceEvent.processExit ∈ stream_windows_trace [AttemptOutcome.connectFail] ∧
    (TraceEvent.sleepRetry 2) ∉
      stream_windows_trace [AttemptOutcome.connectFail] := by
  refine ⟨rfl, ?_, ?_⟩ <;> decide

/-- Counts the retry delays in a trace. -/
def countRetries (tr : List TraceEvent) : Nat :=
  tr.countP (fun e =>
    match e with
    | TraceEvent.sleepRetry _ => true
    | _ => false)

/-- C3 (amended): only the macOS variant has the reconnect policy.  There,
every transport failure (connect or send) aborts only the current connected
session: the loop retries after each of the unboundedly many failures, every
retry delay is exactly the fixed 2 seconds (no backoff growth), and the
process never terminates because of a transport failure.  The Windows
variant instead terminates the process on the first transport failure. -/
theorem transport_retry_policy_by_variant (outcomes : List AttemptOutcome)
    (o : AttemptOutcome) (rest : List AttemptOutcome) :
    TraceEvent.processExit ∉ stream_screen_trace outcomes ∧
    countRetries (stream_screen_trace outcomes) = outcomes.length ∧
    (∀ s : Nat, TraceEvent.sleepRetry s ∈ stream_screen_trace outcomes → s = 2) ∧
    TraceEvent.processExit ∈ stream_windows_trace (o :: rest) := by
  refine ⟨?_, ?_, ?_, ?_⟩
  · induction outcomes with
    | nil => simp [stream_screen_trace]
    | cons a as ih =>
      cases a <;> simp [stream_screen_trace, ih]
  · induction outcomes with
    | nil => simp [stream_screen_trace, countRetries]
    | cons a as ih =>
      cases a <;> simp [stream_screen_trace, countRetries] <;>
        simpa [countRetries] using ih
  · induction outcomes with
    | nil => intro s hs; simp [stream_screen_trace] at hs
    | cons a as ih =>
      intro s hs
      cases a <;> simp [stream_screen_trace] at hs <;>
        rcases hs with h | hs <;> first | omega | exact ih s hs
  · cases o <;> simp [stream_windows_trace]

/-- C3 amended, witnessed at a concrete failure sequence: two macOS
failures produce two fixed 2-second retries and no exit, while the first
Windows failure exits. -/
theorem transport_retry_policy_witness :
    TraceEvent.processExit ∉
      stream_screen_trace
        [AttemptOutcome.connectFail, AttemptOutcome.sendFailAfter 5] ∧
    countRetries (stream_screen_trace
        [AttemptOutcome.connectFail, AttemptOutcome.sendFailAfter 5]) = 2 ∧
    TraceEvent.processExit ∈
      stream_windows_trace [AttemptOutcome.sendFailAfter 5] := by
  have h := transport_retry_policy_by_variant
    [AttemptOutcome.connectFail, AttemptOutcome.sendFailAfter 5]
    (AttemptOutcome.sendFailAfter 5) []
  exact ⟨h.1, h.2.1, h.2.2.2⟩

/- ==================================================================
   WebSocket URL building (src/streamer_linux.py lines 56-66,
   src/streamer_windows.py lines 20-35, src/streamer_mac.py lines 68-79)
   ================================================================== -/

/-- Python str.startswith, character by character. -/
def str_starts_with (s pre : String) : Bool :=
  s.data.take pre.data.length == pre.data

/-- Python slicing s[n:], dropping the first n characters. -/
def str_drop (s : String) (n : Nat) : String :=
  String.mk (s.data.drop n)

/-- Python s.rstrip of the slash character: removes every trailing slash. -/
def rstrip_slashes (s : String) : String :=
  String.mk ((s.data.reverse.dropWhile (fun c => c = '/')).reverse)

/-- `build_ws_url` of src/streamer_linux.py: strips trailing slashes, then
rewrites an https prefix to wss, an http prefix to ws, passes a ws or wss
base through, prefixes ws to anything else, and appends the ingest path
with the room and player query parameters. -/
def build_ws_url_linux (api_base room player : String) : String :=
  let b := rstrip_slashes api_base
  let ws_base :=
    if str_starts_with b "https://" then "wss://" ++ str_drop b 8
    else if str_starts_with b "http://" then "ws://" ++ str_drop b 7
    else if str_starts_with b "ws://" || str_starts_with b "wss://" then b
    else "ws://" ++ b
  ws_base ++ "/ingest?room=" ++ room ++ "&player=" ++ player

/-- `build_ws_url` of src/streamer_windows.py (same code as the Linux
variant). -/
def build_ws_url_windows (api_base room player : String) : String :=
  let b := rstrip_slashes api_base
  let ws_base :=
    if str_starts_with b "https://" then "wss://" ++ str_drop b 8
    else if str_starts_with b "http://" then "ws://" ++ str_drop b 7
    else if str_starts_with b "ws://" || str_starts_with b "wss://" then b
    else "ws://" ++ b
  ws_base ++ "/ingest?room=" ++ room ++ "&player=" ++ player

/-- `build_ws_url` of src/streamer_mac.py (same code as the Linux
variant). -/
def build_ws_url_mac (api_base room player : String) : String :=
  let b := rstrip_slashes api_base
  let ws_base :=
    if str_starts_with b "https://" then "wss://" ++ str_drop b 8
    else if str_starts_with b "http://" then "ws://" ++ str_drop b 7
    else if str_starts_with b "ws://" || str_starts_with b "wss://" then b
    else "ws://" ++ b
  ws_base ++ "/ingest?room=" ++ room ++ "&player=" ++ player

theorem starts_with_append_left (p t : String) :
    str_starts_with (p ++ t) p = true := by
  simp [str_starts_with, String.data_append, List.take_left]

theorem starts_with_append_mono (s p t : String)
    (h : str_starts_with s p = true) :
    str_starts_with (s ++ t) p = true := by
  simp only [str_starts_with, beq_iff_eq] at h ⊢
  have hle : p.data.length ≤ s.data.length := by
    have h2 := congrArg List.length h
    rw [List.length_take] at h2
    omega
  rw [String.data_append, List.take_append_of_le_length hle, h]

/-- C9 (counterexample): the trailing-slash strip runs before the scheme
test, so the degenerate base consisting of the bare scheme https:// (whose
slashes are all stripped away) is not rewritten to wss; it falls to the
default branch and the produced endpoint starts with ws://https: instead
of wss://. -/
theorem build_ws_url_bare_scheme :
    str_starts_with "https://" "https://" = true ∧
    build_ws_url_linux "https://" "r1" "p1" =
      "ws://https:/ingest?room=r1&player=p1" ∧
    str_starts_with (build_ws_url_linux "https://" "r1" "p1") "wss://" = false := by
  refine ⟨by decide, by decide, by decide⟩

/-- C9 (amended): all three platform variants compute the same URL, of the
form scheme, host, /ingest?room=..., &player=...; the scheme rewriting
applies to the base after its trailing slashes are stripped: a stripped
base starting with https:// has that prefix replaced by wss://, http:// is
replaced by ws://, a stripped base already starting with ws:// or wss://
passes through unchanged, and every produced endpoint begins with ws:// or
wss://. -/
theorem build_ws_url_amended (base room player : String) :
    build_ws_url_windows base room player = build_ws_url_linux base room player ∧
    build_ws_url_mac base room player = build_ws_url_linux base room player ∧
    (str_starts_with (rstrip_slashes base) "https://" = true →
      build_ws_url_linux base room player =
        "wss://" ++ str_drop (rstrip_slashes base) 8 ++
          "/ingest?room=" ++ room ++ "&player=" ++ player) ∧
    (str_starts_with (rstrip_slashes base) "https://" = false →
     str_starts_with (rstrip_slashes base) "http://" = true →
      build_ws_url_linux base room player =
        "ws://" ++ str_drop (rstrip_slashes base) 7 ++
          "/ingest?room=" ++ room ++ "&player=" ++ player) ∧
    (str_starts_with (rstrip_slashes base) "https://" = false →
     str_starts_with (rstrip_slashes base) "http://" = false →
     (str_starts_with (rstrip_slashes base) "ws://" = true ∨
      str_starts_with (rstrip_slashes base) "wss://" = true) →
      build_ws_url_linux base room player =
        rstrip_slashes base ++
          "/ingest?room=" ++ room ++ "&player=" ++ player) ∧
    (str_starts_with (build_ws_url_linux base room player) "ws://" = true ∨
     str_starts_with (build_ws_url_linux base room player) "wss://" = true) := by
  refine ⟨rfl, rfl, ?_, ?_, ?_, ?_⟩
  · intro h1
    simp [build_ws_url_linux, h1]
  · intro h1 h2
    simp [build_ws_url_linux, h1, h2]
  · intro h1 h2 h3
    rcases h3 with h3 | h3 <;> simp [build_ws_url_linux, h1, h2, h3]
  · simp only [build_ws_url_linux]
    split
    · exact Or.inr (starts_with_append_mono _ _ _ (starts_with_append_mono _ _ _
        (starts_with_append_mono _ _ _ (starts_with_append_mono _ _ _
          (starts_with_append_left "wss://" _)))))
    · split
      · exact Or.inl (starts_with_append_mono _ _ _ (starts_with_append_mono _ _ _
          (starts_with_append_mono _ _ _ (starts_with_append_mono _ _ _
            (starts_with_append_left "ws://" _)))))
      · split
        · rename_i hor
          rcases Bool.or_eq_true_iff.mp hor with h | h
          · exact Or.inl (starts_with_append_mono _ _ _ (starts_with_append_mono _ _ _
              (starts_with_append_mono _ _ _ (starts_with_append_mono _ _ _ h))))
          · exact Or.inr (starts_with_append_mono _ _ _ (starts_with_append_mono _ _ _
              (starts_with_append_mono _ _ _ (starts_with_append_mono _ _ _ h))))
        · exact Or.inl (starts_with_append_mono _ _ _ (starts_with_append_mono _ _ _
            (starts_with_append_mono _ _ _ (starts_with_append_mono _ _ _
              (starts_with_append_left "ws://" _)))))

/-- C9 amended, witnessed at the production base URL: the https scheme is
rewritten to wss after the trailing slash is stripped. -/
theorem build_ws_url_amended_witness :
    build_ws_url_linux "https://www.vpinleaders.com/" "R1" "p1" =
      "wss://www.vpinleaders.com/ingest?room=R1&player=p1" := by
  have h := (build_ws_url_amended "https://www.vpinleaders.com/" "R1" "p1").2.2.1
    (by decide)
  rw [h]
  decide

/- ==================================================================
   Frame resizing (src/streamer_linux.py lines 69-76,
   src/streamer_windows.py lines 38-51, src/streamer_mac.py lines 14-21)
   ================================================================== -/

/-- The scale factor min(maxw / w, maxh / h, 1.0) computed by every resize
variant, with Python float division modelled as exact rational division. -/
def scale_factor (w h maxw maxh : Nat) : ℚ :=
  min ((maxw : ℚ) / (w : ℚ)) (min ((maxh : ℚ) / (h : ℚ)) 1)

/-- `resize_to_max` of src/streamer_linux.py, on frame dimensions: a frame
whose scale factor is at least 1 is returned unmodified; otherwise each
dimension is multiplied by the scale, truncated to an integer, and clamped
below by 2. -/
def resize_to_max_linux (w h maxw maxh : Nat) : Nat × Nat :=
  if 1 ≤ scale_factor w h maxw maxh then (w, h)
  else (max 2 (Int.toNat ⌊(w : ℚ) * scale_factor w h maxw maxh⌋),
    max 2 (Int.toNat ⌊(h : ℚ) * scale_factor w h maxw maxh⌋))

/-- `resize_to_max` of src/streamer_windows.py: as the Linux variant but
without the clamp to a minimum dimension of 2. -/
def resize_to_max_windows (w h maxw maxh : Nat) : Nat × Nat :=
  if 1 ≤ scale_factor w h maxw maxh then (w, h)
  else (Int.toNat ⌊(w : ℚ) * scale_factor w h maxw maxh⌋,
    Int.toNat ⌊(h : ℚ) * scale_factor w h maxw maxh⌋)

/-- `resize_if_needed` of src/streamer_mac.py (same computation as the
Windows variant). -/
def resize_if_needed_mac (w h maxw maxh : Nat) : Nat × Nat :=
  if 1 ≤ scale_factor w h maxw maxh then (w, h)
  else (Int.toNat ⌊(w : ℚ) * scale_factor w h maxw maxh⌋,
    Int.toNat ⌊(h : ℚ) * scale_factor w h maxw maxh⌋)

theorem scale_factor_le_one (w h maxw maxh : Nat) :
    scale_factor w h maxw maxh ≤ 1 :=
  le_trans (min_le_right _ _) (min_le_right _ _)

theorem toNat_floor_mul_le (w : Nat) (s : ℚ) (hs : s ≤ 1) :
    Int.toNat ⌊(w : ℚ) * s⌋ ≤ w := by
  have h1 : (w : ℚ) * s ≤ (w : ℚ) := by
    calc (w : ℚ) * s ≤ (w : ℚ) * 1 :=
      mul_le_mul_of_nonneg_left hs (Nat.cast_nonneg w)
    _ = (w : ℚ) := mul_one _
  have h2 : ⌊(w : ℚ) * s⌋ ≤ (w : ℤ) := by
    calc ⌊(w : ℚ) * s⌋ ≤ ⌊(w : ℚ)⌋ := Int.floor_le_floor h1
    _ = (w : ℤ) := Int.floor_natCast w
  exact Int.toNat_le.mpr h2

/-- C4 (counterexample): the Linux resize clamps each output dimension to a
minimum of 2, so the degenerate 1 x 10 frame with bounds maxw=100, maxh=5
(scale one half) is resized to 2 x 5: its output width 2 exceeds the input
width 1, refuting that the output never has a larger dimension than the
input on every variant. -/
theorem resize_linux_enlarges_width :
    resize_to_max_linux 1 10 100 5 = (2, 5) ∧ 1 < (resize_to_max_linux 1 10 100 5).1 := by
  have hs : scale_factor 1 10 100 5 = 1 / 2 := by norm_num [scale_factor, min_def]
  have he : resize_to_max_linux 1 10 100 5 = (2, 5) := by
    norm_num [resize_to_max_linux, hs]
    omega
  exact ⟨he, by norm_num [he]⟩

/-- C4 (amended): every variant computes scale = min(maxw/w, maxh/h, 1), a
value never above 1, and returns the frame unmodified unless scale < 1.
The Windows and macOS variants never produce an output dimension above the
input.  The Linux variant clamps each output dimension below by 2, so its
output never exceeds the input whenever both input dimensions are at least
2 (an input dimension of 1 can be raised to 2). -/
theorem resize_never_upscales_amended (w h maxw maxh : Nat) :
    scale_factor w h maxw maxh ≤ 1 ∧
    (1 ≤ scale_factor w h maxw maxh →
      resize_to_max_linux w h maxw maxh = (w, h) ∧
      resize_to_max_windows w h maxw maxh = (w, h) ∧
      resize_if_needed_mac w h maxw maxh = (w, h)) ∧
    (1 ≤ w → 1 ≤ h →
      (resize_to_max_windows w h maxw maxh).1 ≤ w ∧
      (resize_to_max_windows w h maxw maxh).2 ≤ h ∧
      (resize_if_needed_mac w h maxw maxh).1 ≤ w ∧
      (resize_if_needed_mac w h maxw maxh).2 ≤ h) ∧
    (2 ≤ w → 2 ≤ h →
      (resize_to_max_linux w h maxw maxh).1 ≤ w ∧
      (resize_to_max_linux w h maxw maxh).2 ≤ h) := by
  have hs := scale_factor_le_one w h maxw maxh
  have hw := toNat_floor_mul_le w (scale_factor w h maxw maxh) hs
  have hh := toNat_floor_mul_le h (scale_factor w h maxw maxh) hs
  refine ⟨hs, ?_, ?_, ?_⟩
  · intro h1
    simp [resize_to_max_linux, resize_to_max_windows, resize_if_needed_mac, h1]
  · intro hw1 hh1
    by_cases h1 : 1 ≤ scale_factor w h maxw maxh
    · simp [resize_to_max_windows, resize_if_needed_mac, h1]
    · simp only [resize_to_max_windows, resize_if_needed_mac, h1, if_false]
      exact ⟨hw, hh, hw, hh⟩
  · intro hw2 hh2
    by_cases h1 : 1 ≤ scale_factor w h maxw maxh
    · simp [resize_to_max_linux, h1]
    · simp only [resize_to_max_linux, h1, if_false]
      exact ⟨max_le hw2 hw, max_le hh2 hh⟩

/-- C4 amended, witnessed at the 1920 x 1080 frame with bounds 1280 x 720
from the specification: neither output dimension exceeds the input, and the
Linux output is exactly 1280 x 720. -/
theorem resize_never_upscales_witness :
    (resize_to_max_linux 1920 1080 1280 720).1 ≤ 1920 ∧
    (resize_to_max_windows 1920 1080 1280 720).2 ≤ 1080 ∧
    resize_to_max_linux 1920 1080 1280 720 = (1280, 720) := by
  refine ⟨((resize_never_upscales_amended 1920 1080 1280 720).2.2.2
      (by norm_num) (by norm_num)).1,
    ((resize_never_upscales_amended 1920 1080 1280 720).2.2.1
      (by norm_num) (by norm_num)).2.1, ?_⟩
  have hs : scale_factor 1920 1080 1280 720 = 2 / 3 := by
    norm_num [scale_factor, min_def]
  norm_num [resize_to_max_linux, hs]
  omega

/- ==================================================================
   Portal negotiation (src/streamer_linux.py, RawPortalScreencast
   lines 91-241 and stream_wayland lines 374-446)
   ================================================================== -/

/-- The five calls issued to the portal service. -/
inductive PortalCall where
  | createSession
  | selectSources
  | start
  | openPipeWireRemote
  | closeSession
deriving DecidableEq

/-- The typed failures of a `stream_wayland` run (each RuntimeError or
TimeoutError raised by the code, distinguished by its message). -/
inductive NegotiationError where
  | wsConnectFailed
  | portalTimeout (step : PortalCall)
  | portalDenied (step : PortalCall) (code : Nat)
  | noSessionHandle
  | noStreams
  | fdPassingUnsupported
  | noUnixFds
  | pipelineInitFailed
  | streamingFailed
deriving DecidableEq

/-- The outcomes the outside world delivers to one `stream_wayland` run:
whether the session is a Wayland session, whether the websocket connect
succeeds, whether the bus connect negotiated unix fd passing (checked once
in `RawPortalScreencast.connect` and remembered in `fd_passing_enabled`),
the response code carried by the signal each step's await resolves to
(`none` models the per-step timeout), the session handle the portal
returns, the granted stream node ids, whether the OpenPipeWireRemote reply
carries unix fds, and whether the GStreamer pipeline starts. -/
structure PortalEnv where
  wayland : Bool
  wsConnectOk : Bool
  fdPassing : Bool
  createResp : Option Nat
  sessionHandle : Option String
  selectResp : Option Nat
  startResp : Option Nat
  streams : List Nat
  openPWHasFds : Bool
  pipelineOk : Bool

/-- The body of the try block of `stream_wayland` (lines 401-438):
`select_sources`, then `start`, then `open_pipewire_remote`, then the
pipeline and the send loop.  Each step raises on a non-zero response code
or a timeout, aborting the rest; `open_pipewire_remote` raises
FdPassingUnsupported before issuing its call when the bus connect did not
negotiate fd passing.  The infinite send loop is modelled by the eventual
streaming error that ends it.  Returns the portal calls issued and the
outcome. -/
def negotiate_after_session (env : PortalEnv) :
    List PortalCall × Except NegotiationError Unit :=
  match env.selectResp with
  | none =>
    ([PortalCall.selectSources],
     Except.error (NegotiationError.portalTimeout PortalCall.selectSources))
  | some c =>
    if c = 0 then
      match env.startResp with
      | none =>
        ([PortalCall.selectSources, PortalCall.start],
         Except.error (NegotiationError.portalTimeout PortalCall.start))
      | some s =>
        if s = 0 then
          if env.streams = [] then
            ([PortalCall.selectSources, PortalCall.start],
             Except.error NegotiationError.noStreams)
          else
            if env.fdPassing then
              if env.openPWHasFds then
                if env.pipelineOk then
                  ([PortalCall.selectSources, PortalCall.start,
                    PortalCall.openPipeWireRemote],
                   Except.error NegotiationError.streamingFailed)
                else
                  ([PortalCall.selectSources, PortalCall.start,
                    PortalCall.openPipeWireRemote],
                   Except.error NegotiationError.pipelineInitFailed)
              else
                ([PortalCall.selectSources, PortalCall.start,
                  PortalCall.openPipeWireRemote],
                 Except.error NegotiationError.noUnixFds)
            else
              ([PortalCall.selectSources, PortalCall.start],
               Except.error NegotiationError.fdPassingUnsupported)
        else
          ([PortalCall.selectSources, PortalCall.start],
           Except.error (NegotiationError.portalDenied PortalCall.start s))
    else
      ([PortalCall.selectSources],
       Except.error (NegotiationError.portalDenied PortalCall.selectSources c))

/-- `RawPortalScreencast.close_session`: issues Session.Close and swallows
any exception the call raises (try/except pass), so it never fails. -/
def close_session_run (callRaises : Bool) :
    List PortalCall × Except NegotiationError Unit :=
  let callResult : Except Unit Unit :=
    if callRaises then Except.error () else Except.ok ()
  ([PortalCall.closeSession],
   match callResult with
   | Except.error _ => Except.ok ()
   | Except.ok _ => Except.ok ())

theorem close_session_run_ok (callRaises : Bool) :
    close_session_run callRaises =
      ([PortalCall.closeSession], Except.ok ()) := by
  cases callRaises <;> rfl

/-- `stream_wayland` of src/streamer_linux.py: returns early when the
session is not Wayland; otherwise connects the websocket and the bus,
issues CreateSession and awaits its response, and on success runs the try
block whose finally clause always runs `close_session` (whose own errors
are swallowed) before the body's outcome propagates. -/
def stream_wayland_run (env : PortalEnv) (closeRaises : Bool) :
    List PortalCall × Except NegotiationError Unit :=
  if env.wayland then
    if env.wsConnectOk then
      match env.createResp with
      | none =>
        ([PortalCall.createSession],
         Except.error (NegotiationError.portalTimeout PortalCall.createSession))
      | some c =>
        if c = 0 then
          match env.sessionHandle with
          | none =>
            ([PortalCall.createSession],
             Except.error NegotiationError.noSessionHandle)
          | some handle =>
            if handle = "" then
              ([PortalCall.createSession],
               Except.error NegotiationError.noSessionHandle)
            else
              let body := negotiate_after_session env
              let close := close_session_run closeRaises
              (PortalCall.createSession :: body.1 ++ close.1,
               match close.2 with
               | Except.ok _ => body.2
               | Except.error e => Except.error e)
        else
          ([PortalCall.createSession],
           Except.error (NegotiationError.portalDenied PortalCall.createSession c))
    else ([], Except.error NegotiationError.wsConnectFailed)
  else ([], Except.ok ())

theorem nas_spec (env : PortalEnv) :
    (∃ rest, (negotiate_after_session env).1 ++ rest =
      [PortalCall.selectSources, PortalCall.start,
        PortalCall.openPipeWireRemote]) ∧
    (PortalCall.start ∈ (negotiate_after_session env).1 →
      env.selectResp = some 0) ∧
    (PortalCall.openPipeWireRemote ∈ (negotiate_after_session env).1 →
      env.selectResp = some 0 ∧ env.startResp = some 0) ∧
    PortalCall.createSession ∉ (negotiate_after_session env).1 ∧
    PortalCall.closeSession ∉ (negotiate_after_session env).1 := by
  obtain ⟨way, ws, fd, cr, sh, se, st, strm, op, pi⟩ := env
  cases se with
  | none =>
    have ht : (negotiate_after_session
        ⟨way, ws, fd, cr, sh, none, st, strm, op, pi⟩).1 =
        [PortalCall.selectSources] := by
      simp [negotiate_after_session]
    rw [ht]
    exact ⟨⟨[PortalCall.start, PortalCall.openPipeWireRemote], rfl⟩,
      by simp, by simp, by simp, by simp⟩
  | some c =>
    by_cases hc : c = 0
    · subst hc
      cases st with
      | none =>
        have ht : (negotiate_after_session
            ⟨way, ws, fd, cr, sh, some 0, none, strm, op, pi⟩).1 =
            [PortalCall.selectSources, PortalCall.start] := by
          simp [negotiate_after_session]
        rw [ht]
        exact ⟨⟨[PortalCall.openPipeWireRemote], rfl⟩,
          by simp, by simp, by simp, by simp⟩
      | some s =>
        by_cases hs : s = 0
        · subst hs
          by_cases hstrm : strm = []
          · have ht : (negotiate_after_session
                ⟨way, ws, fd, cr, sh, some 0, some 0, strm, op, pi⟩).1 =
                [PortalCall.selectSources, PortalCall.start] := by
              simp [negotiate_after_session, hstrm]
            rw [ht]
            exact ⟨⟨[PortalCall.openPipeWireRemote], rfl⟩,
              by simp, by simp, by simp, by simp⟩
          · cases fd with
            | false =>
              have ht : (negotiate_after_session
                  ⟨way, ws, false, cr, sh, some 0, some 0, strm, op, pi⟩).1 =
                  [PortalCall.selectSources, PortalCall.start] := by
                simp [negotiate_after_session, hstrm]
              rw [ht]
              exact ⟨⟨[PortalCall.openPipeWireRemote], rfl⟩,
                by simp, by simp, by simp, by simp⟩
            | true =>
              have ht : (negotiate_after_session
                  ⟨way, ws, true, cr, sh, some 0, some 0, strm, op, pi⟩).1 =
                  [PortalCall.selectSources, PortalCall.start,
                    PortalCall.openPipeWireRemote] := by
                cases op <;> cases pi <;>
                  simp [negotiate_after_session, hstrm]
              rw [ht]
              exact ⟨⟨[], by simp⟩, by simp, by simp, by simp, by simp⟩
        · have ht : (negotiate_after_session
              ⟨way, ws, fd, cr, sh, some 0, some s, strm, op, pi⟩).1 =
              [PortalCall.selectSources, PortalCall.start] := by
            simp [negotiate_after_session, hs]
          rw [ht]
          exact ⟨⟨[PortalCall.openPipeWireRemote], rfl⟩,
            by simp, by simp, by simp, by simp⟩
    · have ht : (negotiate_after_session
          ⟨way, ws, fd, cr, sh, some c, st, strm, op, pi⟩).1 =
          [PortalCall.selectSources] := by
        simp [negotiate_after_session, hc]
      rw [ht]
      exact ⟨⟨[PortalCall.start, PortalCall.openPipeWireRemote], rfl⟩,
        by simp, by simp [hc], by simp, by simp⟩

/-- C5: per negotiation attempt, the portal calls issued (the teardown
Close aside) always form a prefix of the strict order CreateSession,
SelectSources, Start, OpenPipeWireRemote -- so no step is skipped,
reordered or repeated -- and each later step is attempted only if every
prior step's correlated signal carried response code 0. -/
theorem negotiation_strict_order (env : PortalEnv) (closeRaises : Bool) :
    (∃ rest, ((stream_wayland_run env closeRaises).1.filter
        (fun c => c != PortalCall.closeSession)) ++ rest =
      [PortalCall.createSession, PortalCall.selectSources, PortalCall.start,
        PortalCall.openPipeWireRemote]) ∧
    (PortalCall.selectSources ∈ (stream_wayland_run env closeRaises).1 →
      env.createResp = some 0) ∧
    (PortalCall.start ∈ (stream_wayland_run env closeRaises).1 →
      env.createResp = some 0 ∧ env.selectResp = some 0) ∧
    (PortalCall.openPipeWireRemote ∈ (stream_wayland_run env closeRaises).1 →
      env.createResp = some 0 ∧ env.selectResp = some 0 ∧
        env.startResp = some 0) := by
  obtain ⟨way, ws, fd, cr, sh, se, st, strm, op, pi⟩ := env
  cases way with
  | false =>
    have ht : (stream_wayland_run
        ⟨false, ws, fd, cr, sh, se, st, strm, op, pi⟩ closeRaises).1 = [] := by
      simp [stream_wayland_run]
    rw [ht]
    exact ⟨⟨[PortalCall.createSession, PortalCall.selectSources,
      PortalCall.start, PortalCall.openPipeWireRemote], rfl⟩,
      by simp, by simp, by simp⟩
  | true =>
    cases ws with
    | false =>
      have ht : (stream_wayland_run
          ⟨true, false, fd, cr, sh, se, st, strm, op, pi⟩ closeRaises).1 = [] := by
        simp [stream_wayland_run]
      rw [ht]
      exact ⟨⟨[PortalCall.createSession, PortalCall.selectSources,
        PortalCall.start, PortalCall.openPipeWireRemote], rfl⟩,
        by simp, by simp, by simp⟩
    | true =>
      cases cr with
      | none =>
        have ht : (stream_wayland_run
            ⟨true, true, fd, none, sh, se, st, strm, op, pi⟩ closeRaises).1 =
            [PortalCall.createSession] := by
          simp [stream_wayland_run]
        rw [ht]
        exact ⟨⟨[PortalCall.selectSources, PortalCall.start,
          PortalCall.openPipeWireRemote], rfl⟩, by simp, by simp, by simp⟩
      | some c =>
        by_cases hc : c = 0
        · subst hc
          cases sh with
          | none =>
            have ht : (stream_wayland_run
                ⟨true, true, fd, some 0, none, se, st, strm, op, pi⟩
                  closeRaises).1 = [PortalCall.createSession] := by
              simp [stream_wayland_run]
            rw [ht]
            exact ⟨⟨[PortalCall.selectSources, PortalCall.start,
              PortalCall.openPipeWireRemote], rfl⟩, by simp, by simp, by simp⟩
          | some handle =>
            by_cases hne : handle = ""
            · subst hne
              have ht : (stream_wayland_run
                  ⟨true, true, fd, some 0, some "", se, st, strm, op, pi⟩
                    closeRaises).1 = [PortalCall.createSession] := by
                simp [stream_wayland_run]
              rw [ht]
              exact ⟨⟨[PortalCall.selectSources, PortalCall.start,
                PortalCall.openPipeWireRemote], rfl⟩, by simp, by simp, by simp⟩
            · obtain ⟨⟨rest, hrest⟩, hstart, hopen, hnc, hncl⟩ :=
                nas_spec ⟨true, true, fd, some 0, some handle, se, st, strm, op, pi⟩
              have hrun : (stream_wayland_run
                  ⟨true, true, fd, some 0, some handle, se, st, strm, op, pi⟩
                    closeRaises).1 =
                  PortalCall.createSession ::
                    (negotiate_after_session
                      ⟨true, true, fd, some 0, some handle, se, st, strm, op,
                        pi⟩).1 ++ [PortalCall.closeSession] := by
                simp [stream_wayland_run, hne, close_session_run_ok]
              rw [hrun]
              have h1 : (negotiate_after_session
                  ⟨true, true, fd, some 0, some handle, se, st, strm, op,
                    pi⟩).1.filter (fun c => c != PortalCall.closeSession) =
                  (negotiate_after_session
                    ⟨true, true, fd, some 0, some handle, se, st, strm, op,
                      pi⟩).1 :=
                List.filter_eq_self.mpr (fun a ha => by
                  have hane : a ≠ PortalCall.closeSession :=
                    fun h => hncl (h ▸ ha)
                  simpa [bne_iff_ne] using hane)
              have e1 : (PortalCall.createSession !=
                  PortalCall.closeSession) = true := rfl
              have e2 : (PortalCall.closeSession !=
                  PortalCall.closeSession) = false := rfl
              refine ⟨⟨rest, ?_⟩, ?_, ?_, ?_⟩
              · rw [List.cons_append, List.filter_cons, e1, List.filter_append,
                  h1]
                simp only [if_true]
                rw [show ([PortalCall.closeSession].filter
                  (fun c => c != PortalCall.closeSession)) = [] from rfl]
                rw [List.append_nil, List.cons_append, hrest]
              · intro _
                rfl
              · intro hmem
                simp only [List.cons_append, List.mem_cons,
                  List.mem_append, List.mem_singleton] at hmem
                rcases hmem with h | h | h
                · exact absurd h (by simp)
                · exact ⟨rfl, hstart h⟩
                · exact absurd h (by simp)
              · intro hmem
                simp only [List.cons_append, List.mem_cons,
                  List.mem_append, List.mem_singleton] at hmem
                rcases hmem with h | h | h
                · exact absurd h (by simp)
                · exact ⟨rfl, (hopen h).1, (hopen h).2⟩
                · exact absurd h (by simp)
        · have ht : (stream_wayland_run
              ⟨true, true, fd, some c, sh, se, st, strm, op, pi⟩
                closeRaises).1 = [PortalCall.createSession] := by
            simp [stream_wayland_run, hc]
          rw [ht]
          exact ⟨⟨[PortalCall.selectSources, PortalCall.start,
            PortalCall.openPipeWireRemote], rfl⟩,
            by simp [hc], by simp [hc], by simp [hc]⟩

/-- C6: when the initial bus connection fell back to the non-fd-passing
mode (recorded once, at connect, in fd_passing_enabled), a negotiation in
which all prior steps succeeded fails with the FdPassingUnsupported error
and the OpenPipeWireRemote call is never issued; that error is distinct
from every protocol-level denial. -/
theorem fd_passing_checked_before_open (env : PortalEnv) (closeRaises : Bool)
    (handle : String)
    (hway : env.wayland = true) (hws : env.wsConnectOk = true)
    (hcr : env.createResp = some 0) (hsh : env.sessionHandle = some handle)
    (hne : handle ≠ "") (hse : env.selectResp = some 0)
    (hst : env.startResp = some 0) (hstrm : env.streams ≠ [])
    (hfd : env.fdPassing = false) :
    stream_wayland_run env closeRaises =
      ([PortalCall.createSession, PortalCall.selectSources, PortalCall.start,
        PortalCall.closeSession],
       Except.error NegotiationError.fdPassingUnsupported) ∧
    PortalCall.openPipeWireRemote ∉ (stream_wayland_run env closeRaises).1 ∧
    (∀ step code, NegotiationError.fdPassingUnsupported ≠
      NegotiationError.portalDenied step code) := by
  have hrun : stream_wayland_run env closeRaises =
      ([PortalCall.createSession, PortalCall.selectSources, PortalCall.start,
        PortalCall.closeSession],
       Except.error NegotiationError.fdPassingUnsupported) := by
    simp [stream_wayland_run, negotiate_after_session, hway, hws, hcr, hsh,
      hne, hse, hst, hstrm, hfd, close_session_run_ok]
  refine ⟨hrun, ?_, ?_⟩
  · rw [hrun]
    simp
  · intro step code
    simp

/-- C8: once CreateSession has succeeded (a non-empty session handle was
returned), the Session.Close call is part of the issued-call trace no
matter how the later steps fare -- SelectSources, Start,
OpenPipeWireRemote, pipeline start or the streaming loop may all fail --
because the try/finally of stream_wayland always runs close_session; and
an error raised by the Close call itself is swallowed, so the run's
outcome does not depend on it. -/
theorem close_session_always_attempted (env : PortalEnv) (handle : String)
    (hway : env.wayland = true) (hws : env.wsConnectOk = true)
    (hcr : env.createResp = some 0) (hsh : env.sessionHandle = some handle)
    (hne : handle ≠ "") :
    (∀ closeRaises,
      PortalCall.closeSession ∈ (stream_wayland_run env closeRaises).1) ∧
    (∀ b1 b2, stream_wayland_run env b1 = stream_wayland_run env b2) ∧
    (∀ closeRaises, (close_session_run closeRaises).2 = Except.ok ()) := by
  refine ⟨?_, ?_, ?_⟩
  · intro closeRaises
    have hrun : (stream_wayland_run env closeRaises).1 =
        PortalCall.createSession ::
          (negotiate_after_session env).1 ++ [PortalCall.closeSession] := by
      simp [stream_wayland_run, hway, hws, hcr, hsh, hne, close_session_run_ok]
    rw [hrun]
    simp
  · intro b1 b2
    simp [stream_wayland_run, hway, hws, hcr, hsh, hne, close_session_run_ok]
  · intro closeRaises
    rw [close_session_run_ok]

/-- A fully successful environment: Wayland session, websocket and bus
connect fine with fd passing, every portal step returns response code 0,
a session handle and one stream are granted, the reply carries fds and the
pipeline starts. -/
def sampleEnvOk : PortalEnv :=
  ⟨true, true, true, some 0, some "/org/fdo/portal/session/1", some 0,
    some 0, [42], true, true⟩

/-- As `sampleEnvOk` but the bus connect fell back to non-fd-passing
mode. -/
def sampleEnvNoFd : PortalEnv :=
  ⟨true, true, false, some 0, some "/org/fdo/portal/session/1", some 0,
    some 0, [42], true, true⟩

/-- C5 witness: in the fully successful run OpenPipeWireRemote is issued,
and the theorem yields that every prior step's response code was 0. -/
theorem negotiation_strict_order_witness :
    sampleEnvOk.createResp = some 0 ∧ sampleEnvOk.selectResp = some 0 ∧
      sampleEnvOk.startResp = some 0 :=
  (negotiation_strict_order sampleEnvOk false).2.2.2 (by decide)

/-- C6 witness: with fd passing disabled at connect and every earlier step
succeeding, the run ends in FdPassingUnsupported and never issues
OpenPipeWireRemote. -/
theorem fd_passing_checked_witness :
    stream_wayland_run sampleEnvNoFd false =
      ([PortalCall.createSession, PortalCall.selectSources, PortalCall.start,
        PortalCall.closeSession],
       Except.error NegotiationError.fdPassingUnsupported) :=
  (fd_passing_checked_before_open sampleEnvNoFd false
    "/org/fdo/portal/session/1" rfl rfl rfl rfl (by decide) rfl rfl
    (by decide) rfl).1

/-- C8 witness: in the fully successful run the teardown Close call is in
the issued trace. -/
theorem close_session_witness :
    PortalCall.closeSession ∈ (stream_wayland_run sampleEnvOk false).1 :=
  (close_session_always_attempted sampleEnvOk "/org/fdo/portal/session/1"
    rfl rfl rfl rfl (by decide)).1 false

/- ==================================================================
   get_frame and the streaming loop iteration
   (src/streamer_linux.py, lines 363-367 and 421-438)
   ================================================================== -/

/-- `asyncio.wait_for(self.queue.get(), timeout)`: yields the head of the
queue when it is non-empty, otherwise the first frame to arrive before the
deadline, and raises asyncio.TimeoutError (modelled as `Except.error`)
when the queue stays empty past the deadline. -/
def queue_get_wait_for {α : Type} (q : List α) (arrival : Option α) :
    Except Unit (α × List α) :=
  match q with
  | f :: rest => Except.ok (f, rest)
  | [] =>
    match arrival with
    | some f => Except.ok (f, [])
    | none => Except.error ()

/-- `GstPipeWireCallbackGrabber.get_frame`: awaits the queue with the given
timeout and catches asyncio.TimeoutError, returning the explicit no-frame
value None instead of raising. -/
def get_frame {α : Type} (q : List α) (arrival : Option α) :
    Option α × List α :=
  match queue_get_wait_for q arrival with
  | Except.ok (f, rest) => (some f, rest)
  | Except.error _ => (none, q)

/-- What one iteration of the stream_wayland send loop does. -/
inductive StreamIterResult (α : Type) where
  | continueNoFrame
  | sentFrame (f : α)
  | skippedEncode (f : α)
deriving DecidableEq

/-- One iteration of the send loop of `stream_wayland` (lines 421-438):
`get_frame` returning None prints a waiting line and continues the loop;
otherwise the frame is resized and encoded, a failed encode skips the
send, and a raising `ws.send` (modelled by `sendFails`) aborts the loop by
propagating (`Except.error`), which is the only way the iteration ends the
connection. -/
def stream_wayland_iteration {α : Type} (q : List α) (arrival : Option α)
    (encodeOk : Bool) (sendFails : Bool) :
    Except Unit (StreamIterResult α × List α) :=
  match get_frame q arrival with
  | (none, q2) => Except.ok (StreamIterResult.continueNoFrame, q2)
  | (some f, q2) =>
    if encodeOk then
      if sendFails then Except.error ()
      else Except.ok (StreamIterResult.sentFrame f, q2)
    else Except.ok (StreamIterResult.skippedEncode f, q2)

/-- C7: whatever the timeout, when no frame arrives within the deadline
`get_frame` returns the explicit no-frame value None instead of letting
the TimeoutError propagate, and the streaming loop turns that None into a
skip-this-iteration outcome (`Except.ok` with `continueNoFrame`): the
iteration does not end the connection, which only an `Except.error` from a
send failure does. -/
theorem get_frame_timeout_skips (α : Type) (q : List α) (arrival : Option α)
    (encodeOk sendFails : Bool) :
    (queue_get_wait_for q arrival = Except.error () →
      get_frame q arrival = (none, q)) ∧
    ((get_frame q arrival).1 = none →
      stream_wayland_iteration q arrival encodeOk sendFails =
        Except.ok (StreamIterResult.continueNoFrame,
          (get_frame q arrival).2)) ∧
    stream_wayland_iteration ([] : List α) none encodeOk sendFails =
      Except.ok (StreamIterResult.continueNoFrame, []) := by
  refine ⟨?_, ?_, ?_⟩
  · intro h
    simp [get_frame, h]
  · intro h
    cases hg : get_frame q arrival with
    | mk first second =>
      rw [hg] at h
      subst h
      simp [stream_wayland_iteration, hg]
  · cases encodeOk <;> cases sendFails <;> rfl

/-- C7 witness: an empty queue with no frame arriving before the deadline
makes the iteration an explicit skip. -/
theorem get_frame_timeout_skips_witness :
    stream_wayland_iteration ([] : List Nat) none true false =
      Except.ok (StreamIterResult.continueNoFrame, []) :=
  (get_frame_timeout_skips Nat [] none true false).2.2
